import Mathlib

/-!
Verification development for the colundi waveform generator
(src/colundi_generator.py).

The numeric embedding idealizes Python floats as exact rationals for the
sample-count pipeline and as real numbers for phases and sample values.
Failure modes of the Python code (ZeroDivisionError when dividing by a
zero frequency, ValueError when numpy linspace receives a negative count,
ValueError when float() receives a non-numeric string) are made explicit
with Except results.
-/

/-- The four waveform kinds, from the WaveFormType enum. -/
inductive WaveFormType
  | sine
  | triangle
  | square
  | sawtooth
deriving DecidableEq

/-- Python float modulo with a real modulus: x % m = x - m * floor (x / m).
For a positive modulus this is exactly the semantics of the % operator on
Python floats. -/
noncomputable def pymod (x m : ℝ) : ℝ := x - m * ⌊x / m⌋

/-- WaveformGenerator._triangle_func from the source, on real phase values. -/
noncomputable def triangle_func (x : ℝ) : ℝ :=
  2 * |2 * ((x / (2 * Real.pi)) - ⌊(x / (2 * Real.pi)) + 0.5⌋)| - 1

/-- WaveformGenerator._square_func from the source, on real phase values. -/
noncomputable def square_func (x : ℝ) : ℝ :=
  if pymod x (2 * Real.pi) < Real.pi then 1 else -1

/-- WaveformGenerator._sawtooth_func from the source, on real phase values. -/
noncomputable def sawtooth_func (x : ℝ) : ℝ :=
  2 * (x / (2 * Real.pi) - ⌊0.5 + x / (2 * Real.pi)⌋)

/-- The wave_functions dictionary of the generator, as a total map from
waveform kind to shaping function.  The numpy vectorize wrappers apply the
scalar functions elementwise, which is what List.map does below. -/
noncomputable def wave_functions : WaveFormType → ℝ → ℝ
  | WaveFormType.sine => Real.sin
  | WaveFormType.triangle => triangle_func
  | WaveFormType.square => square_func
  | WaveFormType.sawtooth => sawtooth_func

/-- Python int() applied to a (nonnegative or negative) number truncates
toward zero. -/
def int_trunc (q : ℚ) : ℤ := if 0 ≤ q then ⌊q⌋ else ⌈q⌉

/-- Line 33 of the source: num_periods = ceil (duration * frequency). -/
def num_periods (duration frequency : ℚ) : ℤ := ⌈duration * frequency⌉

/-- Line 34 of the source: adjusted_duration = num_periods / frequency. -/
def adjusted_duration (duration frequency : ℚ) : ℚ :=
  (num_periods duration frequency : ℚ) / frequency

/-- Line 35 of the source: num_samples = int (sample_rate * adjusted_duration). -/
def num_samples (sample_rate duration frequency : ℚ) : ℤ :=
  int_trunc (sample_rate * adjusted_duration duration frequency)

/-- numpy linspace (0, stop, num, endpoint = False): the step is stop / num
and sample i is i times the step. -/
def linspace (stop : ℚ) (num : ℕ) : List ℚ :=
  (List.range num).map (fun (i : ℕ) => stop / (num : ℚ) * (i : ℚ))

/-- The time points t of line 36 of the source. -/
def sample_times (sample_rate duration frequency : ℚ) : List ℚ :=
  linspace (adjusted_duration duration frequency)
    (num_samples sample_rate duration frequency).toNat

/-- The phase arguments 2 * pi * frequency * t passed to the wave function
on line 37 of the source. -/
noncomputable def phases (sample_rate duration frequency : ℚ) : List ℝ :=
  (sample_times sample_rate duration frequency).map
    (fun (t : ℚ) => 2 * Real.pi * (frequency : ℝ) * (t : ℝ))

/-- The constructor state of class WaveformGenerator. -/
structure WaveformGenerator where
  sample_rate : ℚ
  duration : ℚ
  amplitude : ℚ

/-- The ways _generate_wave can raise: ZeroDivisionError from the division
by a zero frequency on line 34, and ValueError from numpy linspace when the
computed sample count is negative on line 36. -/
inductive GenError
  | zeroDivisionError
  | negativeSampleCount
deriving DecidableEq

/-- WaveformGenerator._generate_wave, lines 29 to 37 of the source: the
period count is rounded up, the duration adjusted, the sample count
truncated, and the buffer is amplitude * wave_func (2 pi f t) over the
linspace time points.  The source performs no parameter validation; the
only failure modes are the two exceptions modelled in GenError. -/
noncomputable def WaveformGenerator.generate_wave (g : WaveformGenerator)
    (wave_func : ℝ → ℝ) (frequency : ℚ) : Except GenError (List ℝ) :=
  if frequency = 0 then Except.error GenError.zeroDivisionError
  else if num_samples g.sample_rate g.duration frequency < 0 then
    Except.error GenError.negativeSampleCount
  else
    Except.ok ((phases g.sample_rate g.duration frequency).map
      (fun p => (g.amplitude : ℝ) * wave_func p))

/-- Length of the buffer of a build result, when the build succeeded. -/
def exceptLength (r : Except GenError (List ℝ)) : Option ℕ :=
  match r with
  | Except.ok l => some l.length
  | Except.error _ => none

/-- Whether a build result is a success. -/
def exceptIsOk (r : Except GenError (List ℝ)) : Bool :=
  match r with
  | Except.ok _ => true
  | Except.error _ => false

/-- Value of a decimal digit string, most significant first. -/
def digits_to_nat (ds : List Char) : ℕ :=
  ds.foldl (fun a c => 10 * a + (c.toNat - 48)) 0

/-- Python float () on an unsigned decimal literal: digits, optionally a
point and more digits, with at least one digit overall.  Exponent forms,
inf and nan are outside the modelled fragment; every input appearing in
this development is in the fragment. -/
def parse_unsigned (s : List Char) : Option ℚ :=
  let ip := s.takeWhile Char.isDigit
  let rest := s.dropWhile Char.isDigit
  match rest with
  | [] => if ip.isEmpty then none else some ((digits_to_nat ip : ℚ))
  | c :: rest2 =>
    if c = '.' then
      let fp := rest2.takeWhile Char.isDigit
      let rest3 := rest2.dropWhile Char.isDigit
      if rest3.isEmpty then
        if ip.isEmpty && fp.isEmpty then none
        else some ((digits_to_nat ip : ℚ) + (digits_to_nat fp : ℚ) / ((10 : ℚ) ^ fp.length))
      else none
    else none

/-- Python float () on a possibly signed decimal literal. -/
def parse_float (s : List Char) : Option ℚ :=
  match s with
  | [] => none
  | c :: rest =>
    if c = '-' then (parse_unsigned rest).map (fun q => -q)
    else if c = '+' then parse_unsigned rest
    else parse_unsigned s

/-- Python str.strip (): remove leading and trailing whitespace. -/
def py_strip (s : List Char) : List Char :=
  ((s.dropWhile Char.isWhitespace).reverse.dropWhile Char.isWhitespace).reverse

/-- Python str.split with an explicit separator, for the newline separator:
every occurrence splits, empty pieces are kept, and the result is never
empty (the empty text yields one empty piece). -/
def py_split_newlines : List Char → List (List Char)
  | [] => [[]]
  | c :: cs =>
    if c = '\n' then [] :: py_split_newlines cs
    else
      match py_split_newlines cs with
      | [] => [[c]]
      | l :: ls => (c :: l) :: ls

/-- The error of load_frequencies: float () raised ValueError on a line,
named MalformedInput in the design taxonomy. -/
inductive AppError
  | malformedInput
deriving DecidableEq

/-- The list comprehension of load_frequencies, line 73 of the source:
parse each stripped line in order, failing at the first line float ()
rejects. -/
def parse_lines : List (List Char) → Except AppError (List ℚ)
  | [] => Except.ok []
  | line :: rest =>
    match parse_float (py_strip line) with
    | none => Except.error AppError.malformedInput
    | some q =>
      match parse_lines rest with
      | Except.error e => Except.error e
      | Except.ok qs => Except.ok (q :: qs)

/-- load_frequencies, lines 72 to 73 of the source: split the file text on
newlines, strip each line and parse it as a float. -/
def load_frequencies (text : List Char) : Except AppError (List ℚ) :=
  parse_lines (py_split_newlines text)

/-- Decimal digits of the proper fraction n / den, with fuel bounding the
number of digits produced. -/
def frac_digits : ℕ → ℕ → ℕ → String
  | _, _, 0 => ""
  | n, den, Nat.succ fuel =>
    if n = 0 then "" else Nat.repr (n * 10 / den) ++ frac_digits (n * 10 % den) den fuel

/-- Python repr of a float, modelled on the idealized rational values the
decimal parser produces: an integral value renders as its digits followed
by a trailing .0 (as Python repr does for integral floats), and a
non-integral decimal rational renders with its exact finite decimal
expansion.  For denominators dividing a power of ten the fuel is ample,
and those are the only values that arise from parse_float. -/
def pyFloatRepr (q : ℚ) : String :=
  let sign : String := if q < 0 then "-" else ""
  let a : ℚ := |q|
  let ip : ℕ := (⌊a⌋).toNat
  let frac : ℚ := a - (ip : ℚ)
  if frac = 0 then sign ++ Nat.repr ip ++ ".0"
  else sign ++ Nat.repr ip ++ "." ++ frac_digits frac.num.toNat frac.den frac.den

/-- The destination path built on line 52 of the source:
output_folder / colundi_<frequency>.wav, with the frequency rendered by
the runtime float formatting. -/
def output_path (output_folder : String) (frequency : ℚ) : String :=
  output_folder ++ "/colundi_" ++ pyFloatRepr frequency ++ ".wav"

/-- The destination paths of generate_files, in input order. -/
def generate_files_paths (frequencies : List ℚ) (output_folder : String) : List String :=
  frequencies.map (fun f => output_path output_folder f)

/-- The per-frequency loop of generate_files, lines 47 to 55 of the
source: build each buffer and pair it with its destination path.  A
success carries every written file; an exception aborts the loop. -/
noncomputable def generate_files_loop (g : WaveformGenerator) (wave_func : ℝ → ℝ)
    (output_folder : String) : List ℚ → Except GenError (List (String × List ℝ))
  | [] => Except.ok []
  | f :: rest =>
    match g.generate_wave wave_func f with
    | Except.error e => Except.error e
    | Except.ok buf =>
      match generate_files_loop g wave_func output_folder rest with
      | Except.error e => Except.error e
      | Except.ok files => Except.ok ((output_path output_folder f, buf) :: files)

/-- WaveformGenerator.generate_files, dispatching through the
wave_functions dictionary. -/
noncomputable def generate_files (g : WaveformGenerator) (frequencies : List ℚ)
    (output_folder : String) (waveform_type : WaveFormType) :
    Except GenError (List (String × List ℝ)) :=
  generate_files_loop g (wave_functions waveform_type) output_folder frequencies

/-- The errors the driver can surface. -/
inductive MainError
  | malformedInput
  | generation (e : GenError)
deriving DecidableEq

/-- The driver main, lines 76 to 102 of the source: load the frequency
list first, and only on success construct the generator and run
generate_files.  A success carries the written files; an error means the
corresponding stage raised. -/
noncomputable def main_model (text : List Char) (sample_rate duration amplitude : ℚ)
    (waveform_type : WaveFormType) (output_folder : String) :
    Except MainError (List (String × List ℝ)) :=
  match load_frequencies text with
  | Except.error _ => Except.error MainError.malformedInput
  | Except.ok freqs =>
    match generate_files (WaveformGenerator.mk sample_rate duration amplitude)
        freqs output_folder waveform_type with
    | Except.error e => Except.error (MainError.generation e)
    | Except.ok files => Except.ok files

theorem floor_half_shift_lb (u : ℝ) : -(1 / 2 : ℝ) ≤ u - ⌊u + 0.5⌋ := by
  have h : ((⌊u + 0.5⌋ : ℤ) : ℝ) ≤ u + 0.5 := Int.floor_le _
  have h5 : (0.5 : ℝ) = 1 / 2 := by norm_num
  linarith [h, h5]

theorem floor_half_shift_ub (u : ℝ) : u - ⌊u + 0.5⌋ < 1 / 2 := by
  have h : u + 0.5 < ((⌊u + 0.5⌋ : ℤ) : ℝ) + 1 := Int.lt_floor_add_one _
  have h5 : (0.5 : ℝ) = 1 / 2 := by norm_num
  linarith [h, h5]

theorem abs_triangle_func_le_one (x : ℝ) : |triangle_func x| ≤ 1 := by
  rw [triangle_func]
  set u := x / (2 * Real.pi) with hu
  have h1 := floor_half_shift_lb u
  have h2 := floor_half_shift_ub u
  have habs : |2 * (u - ⌊u + 0.5⌋)| ≤ 1 := by
    rw [abs_le]
    constructor <;> linarith
  have hnn : 0 ≤ |2 * (u - ⌊u + 0.5⌋)| := abs_nonneg _
  rw [abs_le]
  constructor <;> linarith

theorem abs_sawtooth_func_le_one (x : ℝ) : |sawtooth_func x| ≤ 1 := by
  rw [sawtooth_func]
  set u := x / (2 * Real.pi) with hu
  have h1 : ((⌊(0.5 : ℝ) + u⌋ : ℤ) : ℝ) ≤ 0.5 + u := Int.floor_le _
  have h2 : (0.5 : ℝ) + u < ((⌊(0.5 : ℝ) + u⌋ : ℤ) : ℝ) + 1 := Int.lt_floor_add_one _
  have h5 : (0.5 : ℝ) = 1 / 2 := by norm_num
  rw [abs_le]
  constructor <;> linarith [h1, h2, h5]

theorem square_func_eq_one_or (x : ℝ) : square_func x = 1 ∨ square_func x = -1 := by
  rw [square_func]
  by_cases h : pymod x (2 * Real.pi) < Real.pi
  · left; rw [if_pos h]
  · right; rw [if_neg h]

theorem abs_wave_functions_le_one (K : WaveFormType) (x : ℝ) : |wave_functions K x| ≤ 1 := by
  cases K with
  | sine => exact abs_le.mpr ⟨Real.neg_one_le_sin x, Real.sin_le_one x⟩
  | triangle => exact abs_triangle_func_le_one x
  | square =>
    rcases square_func_eq_one_or x with h | h <;> simp [wave_functions, h]
  | sawtooth => exact abs_sawtooth_func_le_one x

theorem generate_wave_ok_elim {g : WaveformGenerator} {wf : ℝ → ℝ} {f : ℚ}
    {buf : List ℝ} (h : g.generate_wave wf f = Except.ok buf) :
    buf = (phases g.sample_rate g.duration f).map (fun p => (g.amplitude : ℝ) * wf p) := by
  rw [WaveformGenerator.generate_wave] at h
  by_cases h1 : f = 0
  · rw [if_pos h1] at h; simp at h
  · rw [if_neg h1] at h
    by_cases h2 : num_samples g.sample_rate g.duration f < 0
    · rw [if_pos h2] at h; simp at h
    · rw [if_neg h2] at h
      exact (Except.ok.inj h).symm

/-- C4: the wave shaping functions satisfy the exact boundary values
square 0 = 1, square pi = -1 (the half-open tie-break for +1 under phase
modulo 2 pi), sawtooth 0 = 0 and triangle 0 = -1. -/
theorem C4_boundary_values :
    square_func 0 = 1 ∧ square_func Real.pi = -1 ∧
    sawtooth_func 0 = 0 ∧ triangle_func 0 = -1 := by
  have hpi := Real.pi_pos
  refine ⟨?_, ?_, ?_, ?_⟩
  · have h0 : pymod 0 (2 * Real.pi) = 0 := by
      rw [pymod, zero_div, Int.floor_zero]
      simp
    rw [square_func, h0, if_pos hpi]
  · have hdiv : Real.pi / (2 * Real.pi) = 1 / 2 := by
      rw [div_eq_iff (by positivity : (2 : ℝ) * Real.pi ≠ 0)]
      ring
    have hm : pymod Real.pi (2 * Real.pi) = Real.pi := by
      rw [pymod, hdiv]
      norm_num
    rw [square_func, hm, if_neg (lt_irrefl Real.pi)]
  · rw [sawtooth_func, zero_div]
    norm_num
  · rw [triangle_func, zero_div]
    norm_num

/-- C3: for valid inputs every sample of the built buffer has magnitude at
most the amplitude, and the square waveform samples are exactly the
amplitude or its negation. -/
theorem C3_amplitude_bound (R D f A : ℚ) (_hR : 0 < R) (_hD : 0 < D) (_hf : 0 < f)
    (hA : 0 ≤ A) :
    (∀ (K : WaveFormType) (buf : List ℝ),
      (WaveformGenerator.mk R D A).generate_wave (wave_functions K) f = Except.ok buf →
      ∀ s ∈ buf, |s| ≤ (A : ℝ)) ∧
    (∀ buf : List ℝ,
      (WaveformGenerator.mk R D A).generate_wave (wave_functions WaveFormType.square) f =
        Except.ok buf →
      ∀ s ∈ buf, s = (A : ℝ) ∨ s = -(A : ℝ)) := by
  have hA2 : (0 : ℝ) ≤ (A : ℝ) := by exact_mod_cast hA
  constructor
  · intro K buf hok s hs
    rw [generate_wave_ok_elim hok] at hs
    rcases List.mem_map.mp hs with ⟨p, _, rfl⟩
    calc |((WaveformGenerator.mk R D A).amplitude : ℝ) * wave_functions K p|
        = |(A : ℝ)| * |wave_functions K p| := abs_mul _ _
      _ = (A : ℝ) * |wave_functions K p| := by rw [abs_of_nonneg hA2]
      _ ≤ (A : ℝ) * 1 := mul_le_mul_of_nonneg_left (abs_wave_functions_le_one K p) hA2
      _ = (A : ℝ) := mul_one _
  · intro buf hok s hs
    rw [generate_wave_ok_elim hok] at hs
    rcases List.mem_map.mp hs with ⟨p, _, rfl⟩
    rcases square_func_eq_one_or p with h | h
    · left
      show ((WaveformGenerator.mk R D A).amplitude : ℝ) * wave_functions WaveFormType.square p = A
      rw [show wave_functions WaveFormType.square = square_func from rfl, h]
      simp
    · right
      show ((WaveformGenerator.mk R D A).amplitude : ℝ) * wave_functions WaveFormType.square p = -A
      rw [show wave_functions WaveFormType.square = square_func from rfl, h]
      simp

/-- Witness for C3 at the end-to-end scenario parameters. -/
theorem C3_amplitude_bound_witness :
    ((0 : ℚ) < 96000 ∧ (0 : ℚ) < 1 ∧ (0 : ℚ) < 440 ∧ (0 : ℚ) ≤ 1 / 2) ∧
    ((∀ (K : WaveFormType) (buf : List ℝ),
      (WaveformGenerator.mk 96000 1 (1 / 2)).generate_wave (wave_functions K) 440 =
        Except.ok buf →
      ∀ s ∈ buf, |s| ≤ ((1 / 2 : ℚ) : ℝ)) ∧
    (∀ buf : List ℝ,
      (WaveformGenerator.mk 96000 1 (1 / 2)).generate_wave
          (wave_functions WaveFormType.square) 440 = Except.ok buf →
      ∀ s ∈ buf, s = ((1 / 2 : ℚ) : ℝ) ∨ s = -((1 / 2 : ℚ) : ℝ))) :=
  ⟨⟨by norm_num, by norm_num, by norm_num, by norm_num⟩,
    C3_amplitude_bound 96000 1 440 (1 / 2) (by norm_num) (by norm_num) (by norm_num)
      (by norm_num)⟩

theorem int_trunc_of_nonneg {q : ℚ} (h : 0 ≤ q) : int_trunc q = ⌊q⌋ := if_pos h

theorem linspace_length (stop : ℚ) (n : ℕ) : (linspace stop n).length = n := by
  rw [linspace, List.length_map, List.length_range]

theorem num_samples_eq_floor (R D f : ℚ) (hR : 0 < R) (hD : 0 < D) (hf : 0 < f) :
    num_samples R D f = ⌊R * ((⌈D * f⌉ : ℤ) : ℚ) / f⌋ ∧ 0 ≤ num_samples R D f := by
  have hp : 0 < num_periods D f := by
    rw [num_periods]
    exact Int.ceil_pos.mpr (mul_pos hD hf)
  have hadj : 0 < adjusted_duration D f := by
    rw [adjusted_duration]
    exact div_pos (by exact_mod_cast hp) hf
  have hprod : 0 ≤ R * adjusted_duration D f := le_of_lt (mul_pos hR hadj)
  constructor
  · rw [num_samples, int_trunc_of_nonneg hprod, adjusted_duration, num_periods,
      mul_div_assoc]
  · rw [num_samples, int_trunc_of_nonneg hprod]
    exact Int.floor_nonneg.mpr hprod

/-- C1: for positive sample rate, duration and frequency the built buffer
has length floor (R * ceil (D * f) / f), the truncation of the sample
count coinciding with the floor since the value is nonnegative. -/
theorem C1_sample_count (R D f A : ℚ) (wf : ℝ → ℝ) (hR : 0 < R) (hD : 0 < D)
    (hf : 0 < f) :
    exceptLength ((WaveformGenerator.mk R D A).generate_wave wf f) =
      some (⌊R * ((⌈D * f⌉ : ℤ) : ℚ) / f⌋).toNat ∧
    0 ≤ ⌊R * ((⌈D * f⌉ : ℤ) : ℚ) / f⌋ := by
  obtain ⟨heq, hnn⟩ := num_samples_eq_floor R D f hR hD hf
  have hne : f ≠ 0 := ne_of_gt hf
  have hnot : ¬ num_samples R D f < 0 := not_lt.mpr hnn
  constructor
  · rw [WaveformGenerator.generate_wave]
    rw [if_neg hne]
    rw [if_neg hnot]
    rw [exceptLength]
    rw [List.length_map, phases, List.length_map, sample_times, linspace_length, heq]
  · rw [← heq]
    exact hnn

/-- Witness for C1 at the documented scenario R 96000, D 1, f 440. -/
theorem C1_sample_count_witness :
    ((0 : ℚ) < 96000 ∧ (0 : ℚ) < 1 ∧ (0 : ℚ) < 440) ∧
    exceptLength ((WaveformGenerator.mk 96000 1 (1 / 2)).generate_wave Real.sin 440) =
      some 96000 := by
  refine ⟨⟨by norm_num, by norm_num, by norm_num⟩, ?_⟩
  have h := (C1_sample_count 96000 1 440 (1 / 2) Real.sin (by norm_num) (by norm_num)
    (by norm_num)).1
  rw [h]
  norm_num
  rfl

theorem adjusted_duration_pos (D f : ℚ) (hD : 0 < D) (hf : 0 < f) :
    0 < adjusted_duration D f := by
  rw [adjusted_duration]
  have hp : 0 < num_periods D f := by
    rw [num_periods]
    exact Int.ceil_pos.mpr (mul_pos hD hf)
  exact div_pos (by exact_mod_cast hp) hf

/-- C5: sample i is taken at time i times the step, every sample time lies
strictly below the adjusted duration (the endpoint is never sampled), and
every phase value is strictly below 2 pi times the rounded period count. -/
theorem C5_half_open_sampling (R D f : ℚ) (_hR : 0 < R) (hD : 0 < D) (hf : 0 < f) :
    (∀ i : ℕ, i < (num_samples R D f).toNat →
      (sample_times R D f)[i]? =
        some ((i : ℚ) * (adjusted_duration D f / ((num_samples R D f).toNat : ℚ)))) ∧
    (∀ t ∈ sample_times R D f, t < adjusted_duration D f) ∧
    (∀ p ∈ phases R D f, p < 2 * Real.pi * (num_periods D f : ℝ)) := by
  have hadj := adjusted_duration_pos D f hD hf
  have hB : ∀ t ∈ sample_times R D f, t < adjusted_duration D f := by
    intro t ht
    rw [sample_times, linspace] at ht
    rcases List.mem_map.mp ht with ⟨i, hi, rfl⟩
    have hin : i < (num_samples R D f).toNat := List.mem_range.mp hi
    have hnpos : 0 < ((num_samples R D f).toNat : ℚ) := by
      have h0 : 0 < (num_samples R D f).toNat := lt_of_le_of_lt (Nat.zero_le i) hin
      exact_mod_cast h0
    have hstep : 0 < adjusted_duration D f / ((num_samples R D f).toNat : ℚ) :=
      div_pos hadj hnpos
    have hlt : (i : ℚ) < ((num_samples R D f).toNat : ℚ) := by exact_mod_cast hin
    calc adjusted_duration D f / ((num_samples R D f).toNat : ℚ) * (i : ℚ)
        < adjusted_duration D f / ((num_samples R D f).toNat : ℚ) *
            ((num_samples R D f).toNat : ℚ) := mul_lt_mul_of_pos_left hlt hstep
      _ = adjusted_duration D f := div_mul_cancel₀ _ (ne_of_gt hnpos)
  refine ⟨?_, hB, ?_⟩
  · intro i hi
    simp [sample_times, linspace, List.getElem?_map, List.getElem?_range, hi, mul_comm]
  · intro p hp
    rw [phases] at hp
    rcases List.mem_map.mp hp with ⟨t, ht, rfl⟩
    have h2pf : (0 : ℝ) < 2 * Real.pi * (f : ℝ) := by
      have hfR : (0 : ℝ) < (f : ℝ) := by exact_mod_cast hf
      exact mul_pos (by positivity) hfR
    have htR : (t : ℝ) < ((adjusted_duration D f : ℚ) : ℝ) := by
      exact_mod_cast hB t ht
    have hfd : f * adjusted_duration D f = ((num_periods D f : ℤ) : ℚ) := by
      rw [adjusted_duration, mul_comm, div_mul_cancel₀ _ (ne_of_gt hf)]
    have hfdR : (f : ℝ) * ((adjusted_duration D f : ℚ) : ℝ) = (num_periods D f : ℝ) := by
      exact_mod_cast congrArg (fun q : ℚ => (q : ℝ)) hfd
    calc 2 * Real.pi * (f : ℝ) * (t : ℝ)
        < 2 * Real.pi * (f : ℝ) * ((adjusted_duration D f : ℚ) : ℝ) :=
          mul_lt_mul_of_pos_left htR h2pf
      _ = 2 * Real.pi * ((f : ℝ) * ((adjusted_duration D f : ℚ) : ℝ)) := by ring
      _ = 2 * Real.pi * (num_periods D f : ℝ) := by rw [hfdR]

/-- Witness for C5 at the documented scenario R 8000, D 1, f 3. -/
theorem C5_half_open_sampling_witness :
    ((0 : ℚ) < 8000 ∧ (0 : ℚ) < 1 ∧ (0 : ℚ) < 3) ∧
    ((∀ i : ℕ, i < (num_samples 8000 1 3).toNat →
      (sample_times 8000 1 3)[i]? =
        some ((i : ℚ) * (adjusted_duration 1 3 / ((num_samples 8000 1 3).toNat : ℚ)))) ∧
    (∀ t ∈ sample_times 8000 1 3, t < adjusted_duration 1 3) ∧
    (∀ p ∈ phases 8000 1 3, p < 2 * Real.pi * (num_periods 1 3 : ℝ))) :=
  ⟨⟨by norm_num, by norm_num, by norm_num⟩,
    C5_half_open_sampling 8000 1 3 (by norm_num) (by norm_num) (by norm_num)⟩

/-- Counterexample for C2 as stated: at sample rate 8000, duration 1 and
the negative frequency -2 the builder raises nothing and produces a buffer
of 8000 samples, so non-positive frequencies are not rejected. -/
theorem C2_invalid_parameter_counterexample :
    exceptLength ((WaveformGenerator.mk 8000 1 (1 / 2)).generate_wave Real.sin (-2)) =
      some 8000 := by
  have hne : (-2 : ℚ) ≠ 0 := by norm_num
  have hns : num_samples 8000 1 (-2) = 8000 := by
    rw [num_samples, adjusted_duration, num_periods, int_trunc]
    rw [one_mul, show (-2 : ℚ) = ((-2 : ℤ) : ℚ) by norm_num, Int.ceil_intCast]
    norm_num
  have hnot : ¬ num_samples (8000 : ℚ) 1 (-2) < 0 := by
    rw [hns]; norm_num
  rw [WaveformGenerator.generate_wave, if_neg hne, if_neg hnot, exceptLength]
  rw [List.length_map, phases, List.length_map, sample_times, linspace_length, hns]
  rfl

/-- C2 (amended): the builder performs no parameter validation.  For a
negative frequency with positive duration and sample rate it raises
nothing and returns a sample buffer; a zero frequency fails with a
ZeroDivisionError at buffer-build time, not an InvalidParameter error. -/
theorem C2_no_validation (R D A f : ℚ) (wf : ℝ → ℝ) (hf : f < 0) (hD : 0 < D)
    (hR : 0 < R) :
    exceptIsOk ((WaveformGenerator.mk R D A).generate_wave wf f) = true ∧
    (WaveformGenerator.mk R D A).generate_wave wf 0 =
      Except.error GenError.zeroDivisionError := by
  have hne : f ≠ 0 := ne_of_lt hf
  have hp : num_periods D f ≤ 0 := by
    rw [num_periods]
    rw [show (0 : ℤ) = ((0 : ℤ) : ℤ) from rfl]
    refine Int.ceil_le.mpr ?_
    push_cast
    exact le_of_lt (mul_neg_of_pos_of_neg hD hf)
  have hadj : 0 ≤ adjusted_duration D f := by
    rw [adjusted_duration]
    exact div_nonneg_of_nonpos (by exact_mod_cast hp) (le_of_lt hf)
  have hnn : 0 ≤ num_samples R D f := by
    rw [num_samples, int_trunc_of_nonneg (mul_nonneg (le_of_lt hR) hadj)]
    exact Int.floor_nonneg.mpr (mul_nonneg (le_of_lt hR) hadj)
  constructor
  · rw [WaveformGenerator.generate_wave, if_neg hne, if_neg (not_lt.mpr hnn), exceptIsOk]
  · rw [WaveformGenerator.generate_wave, if_pos rfl]

/-- Witness for C2 at frequency -2 with positive duration and rate. -/
theorem C2_no_validation_witness :
    ((-2 : ℚ) < 0 ∧ (0 : ℚ) < 1 ∧ (0 : ℚ) < 8000) ∧
    (exceptIsOk ((WaveformGenerator.mk 8000 1 (1 / 2)).generate_wave Real.sin (-2)) = true ∧
    (WaveformGenerator.mk 8000 1 (1 / 2)).generate_wave Real.sin 0 =
      Except.error GenError.zeroDivisionError) :=
  ⟨⟨by norm_num, by norm_num, by norm_num⟩,
    C2_no_validation 8000 1 (1 / 2) (-2) Real.sin (by norm_num) (by norm_num) (by norm_num)⟩

/-- C6: the builder is deterministic: two invocations with identical
sample rate, duration, amplitude, waveform kind and frequency produce
identical sample sequences. -/
theorem C6_deterministic (g1 g2 : WaveformGenerator) (K1 K2 : WaveFormType)
    (f1 f2 : ℚ) (hR : g1.sample_rate = g2.sample_rate) (hD : g1.duration = g2.duration)
    (hA : g1.amplitude = g2.amplitude) (hK : K1 = K2) (hf : f1 = f2) :
    g1.generate_wave (wave_functions K1) f1 = g2.generate_wave (wave_functions K2) f2 := by
  obtain ⟨r1, d1, a1⟩ := g1
  obtain ⟨r2, d2, a2⟩ := g2
  simp only at hR hD hA
  subst hR
  subst hD
  subst hA
  subst hK
  subst hf
  rfl

/-- Witness for C6: two invocations at the documented scenario agree. -/
theorem C6_deterministic_witness :
    ((96000 : ℚ) = 96000 ∧ (1 : ℚ) = 1 ∧ (1 / 2 : ℚ) = 1 / 2 ∧
      WaveFormType.sine = WaveFormType.sine ∧ (440 : ℚ) = 440) ∧
    (WaveformGenerator.mk 96000 1 (1 / 2)).generate_wave
        (wave_functions WaveFormType.sine) 440 =
      (WaveformGenerator.mk 96000 1 (1 / 2)).generate_wave
        (wave_functions WaveFormType.sine) 440 :=
  ⟨⟨rfl, rfl, rfl, rfl, rfl⟩,
    C6_deterministic (WaveformGenerator.mk 96000 1 (1 / 2))
      (WaveformGenerator.mk 96000 1 (1 / 2)) WaveFormType.sine WaveFormType.sine
      440 440 rfl rfl rfl rfl rfl⟩

theorem parse_lines_error_of_mem {lines : List (List Char)}
    (h : ∃ l ∈ lines, parse_float (py_strip l) = none) :
    parse_lines lines = Except.error AppError.malformedInput := by
  induction lines with
  | nil =>
    rcases h with ⟨l, hl, _⟩
    cases hl
  | cons line rest ih =>
    rcases h with ⟨l, hl, hnone⟩
    rcases List.mem_cons.mp hl with rfl | hmem
    · simp [parse_lines, hnone]
    · cases hph : parse_float (py_strip line) with
      | none => simp [parse_lines, hph]
      | some q =>
        have herr := ih ⟨l, hmem, hnone⟩
        simp [parse_lines, hph, herr]

theorem parse_lines_ok_iff (lines : List (List Char)) (qs : List ℚ) :
    parse_lines lines = Except.ok qs ↔
      lines.map (fun l => parse_float (py_strip l)) = qs.map some := by
  induction lines generalizing qs with
  | nil =>
    cases qs with
    | nil => simp [parse_lines]
    | cons q qs => simp [parse_lines]
  | cons line rest ih =>
    cases hph : parse_float (py_strip line) with
    | none =>
      constructor
      · intro h
        simp [parse_lines, hph] at h
      · intro h
        exfalso
        cases qs with
        | nil => simp at h
        | cons q qs =>
          rw [List.map_cons, List.map_cons, hph] at h
          exact Option.noConfusion (List.cons.inj h).1
    | some q0 =>
      constructor
      · intro h
        cases hpr : parse_lines rest with
        | error e =>
          rw [parse_lines.eq_def] at h
          simp only [hph, hpr] at h
          exact Except.noConfusion h
        | ok qs0 =>
          rw [parse_lines.eq_def] at h
          simp only [hph, hpr] at h
          obtain rfl := Except.ok.inj h
          rw [List.map_cons, List.map_cons, hph, (ih qs0).mp hpr]
      · intro h
        cases qs with
        | nil => simp at h
        | cons q qs1 =>
          rw [List.map_cons, List.map_cons, hph] at h
          obtain ⟨hq, hrest⟩ := List.cons.inj h
          have hok := (ih qs1).mpr hrest
          simp [parse_lines, hph, hok, Option.some.inj hq]

theorem py_split_newlines_ne_nil (s : List Char) : py_split_newlines s ≠ [] := by
  cases s with
  | nil => simp [py_split_newlines]
  | cons c cs =>
    by_cases h : c = '\n'
    · simp [py_split_newlines, h]
    · rw [py_split_newlines.eq_def]
      simp only [h, if_false]
      cases py_split_newlines cs <;> simp

theorem py_split_newlines_append_newline (s : List Char) :
    py_split_newlines (s ++ ('\n' :: [])) = py_split_newlines s ++ ([] :: []) := by
  induction s with
  | nil => rfl
  | cons c cs ih =>
    by_cases h : c = '\n'
    · subst h
      simp [py_split_newlines, ih]
    · rw [List.cons_append, py_split_newlines.eq_def]
      simp only [h, if_false]
      rw [ih]
      cases hcs : py_split_newlines cs with
      | nil => exact absurd hcs (py_split_newlines_ne_nil cs)
      | cons l ls =>
        rw [py_split_newlines.eq_def]
        simp only [h, if_false, hcs]
        rfl

/-- C8: a non-numeric line in the frequency list makes the driver fail
with MalformedInput while loading, before any waveform is generated and
before any output file is written. -/
theorem C8_malformed_fails_before_generation (text : List Char)
    (sample_rate duration amplitude : ℚ) (waveform_type : WaveFormType)
    (output_folder : String)
    (h : ∃ l ∈ py_split_newlines text, parse_float (py_strip l) = none) :
    main_model text sample_rate duration amplitude waveform_type output_folder =
      Except.error MainError.malformedInput := by
  have herr : load_frequencies text = Except.error AppError.malformedInput := by
    rw [load_frequencies]
    exact parse_lines_error_of_mem h
  rw [main_model.eq_def, herr]

/-- Witness for C8 on a list whose second line is not numeric. -/
theorem C8_malformed_fails_before_generation_witness :
    (∃ l ∈ py_split_newlines ("440\nabc".toList), parse_float (py_strip l) = none) ∧
    main_model ("440\nabc".toList) 96000 1 (1 / 2) WaveFormType.sine
        "colundi_waveforms_sine" = Except.error MainError.malformedInput := by
  have hex : ∃ l ∈ py_split_newlines ("440\nabc".toList),
      parse_float (py_strip l) = none := by decide
  exact ⟨hex, C8_malformed_fails_before_generation ("440\nabc".toList) 96000 1 (1 / 2)
    WaveFormType.sine "colundi_waveforms_sine" hex⟩

/-- C9: load_frequencies performs no domain validation: it returns ok qs
exactly when every stripped line parses, and then qs is the parsed floats
in file order; zero and negative literals parse, so non-positive
frequencies pass through to the builder unchecked. -/
theorem C9_no_domain_validation :
    (∀ (text : List Char) (qs : List ℚ),
      load_frequencies text = Except.ok qs ↔
        (py_split_newlines text).map (fun l => parse_float (py_strip l)) =
          qs.map some) ∧
    parse_float (py_strip ("0".toList)) = some 0 ∧
    parse_float (py_strip ("-5".toList)) = some (-5) ∧
    load_frequencies ("0\n-5".toList) = Except.ok (0 :: -5 :: []) := by
  refine ⟨fun text qs => ?_, by decide, by decide, by rfl⟩
  rw [load_frequencies]
  exact parse_lines_ok_iff _ _

/-- C10: blank lines are rejected, not tolerated: any file with a line
that strips to nothing fails to load, and in particular any file text
ending in a trailing newline fails. -/
theorem C10_blank_lines_rejected :
    (∀ text : List Char, (∃ l ∈ py_split_newlines text, py_strip l = []) →
      load_frequencies text = Except.error AppError.malformedInput) ∧
    (∀ s : List Char,
      load_frequencies (s ++ ('\n' :: [])) = Except.error AppError.malformedInput) := by
  have hmain : ∀ text : List Char, (∃ l ∈ py_split_newlines text, py_strip l = []) →
      load_frequencies text = Except.error AppError.malformedInput := by
    intro text ⟨l, hl, hstrip⟩
    rw [load_frequencies]
    exact parse_lines_error_of_mem ⟨l, hl, by rw [hstrip]; rfl⟩
  refine ⟨hmain, fun s => ?_⟩
  refine hmain _ ⟨[], ?_, rfl⟩
  rw [py_split_newlines_append_newline]
  exact List.mem_append_right _ (by simp)

/-- Witness for C10 on a one-line file with a trailing newline. -/
theorem C10_blank_lines_rejected_witness :
    (∃ l ∈ py_split_newlines ("440\n".toList), py_strip l = []) ∧
    load_frequencies ("440\n".toList) = Except.error AppError.malformedInput := by
  have hex : ∃ l ∈ py_split_newlines ("440\n".toList), py_strip l = [] := by decide
  exact ⟨hex, C10_blank_lines_rejected.1 ("440\n".toList) hex⟩

theorem generate_files_loop_paths (g : WaveformGenerator) (wf : ℝ → ℝ)
    (folder : String) :
    ∀ (fs : List ℚ) (files : List (String × List ℝ)),
      generate_files_loop g wf folder fs = Except.ok files →
      files.map Prod.fst = generate_files_paths fs folder := by
  intro fs
  induction fs with
  | nil =>
    intro files h
    simp only [generate_files_loop] at h
    obtain rfl := Except.ok.inj h
    simp [generate_files_paths]
  | cons f rest ih =>
    intro files h
    cases hw : g.generate_wave wf f with
    | error e => simp [generate_files_loop, hw] at h
    | ok buf =>
      cases hr : generate_files_loop g wf folder rest with
      | error e => simp [generate_files_loop, hw, hr] at h
      | ok files0 =>
        rw [generate_files_loop.eq_def] at h
        simp only [hw, hr] at h
        obtain rfl := Except.ok.inj h
        have ht := ih files0 hr
        simp only [generate_files_paths, List.map_cons] at ht ⊢
        rw [ht]

theorem pyFloatRepr_natCast (n : ℕ) : pyFloatRepr (n : ℚ) = Nat.repr n ++ ".0" := by
  have hnn : (0 : ℚ) ≤ (n : ℚ) := Nat.cast_nonneg n
  have habs : |(n : ℚ)| = (n : ℚ) := abs_of_nonneg hnn
  have hfl : ⌊(n : ℚ)⌋ = (n : ℤ) := Int.floor_natCast n
  rw [pyFloatRepr]
  simp only [habs, hfl, Int.toNat_natCast]
  rw [if_pos (by rw [sub_self]), if_neg (not_lt.mpr hnn), String.empty_append]

/-- Counterexample for C7 as stated: the input line 440 parses to the
frequency 440, but the file name renders it as 440.0, which is not the
textual frequency that appeared in the input list. -/
theorem C7_path_counterexample :
    parse_float (py_strip ("440".toList)) = some 440 ∧
    output_path "out" 440 = "out/colundi_440.0.wav" ∧
    pyFloatRepr 440 ≠ "440" := by
  have hcast : (440 : ℚ) = ((440 : ℕ) : ℚ) := by norm_num
  have h440 : pyFloatRepr 440 = "440.0" := by
    rw [hcast, pyFloatRepr_natCast]
    rfl
  refine ⟨by decide, ?_, ?_⟩
  · rw [output_path, h440]
    rfl
  · rw [h440]
    decide

/-- C7 (amended): each output file path is
output_folder/colundi_<repr>.wav with <repr> the runtime rendering of the
parsed float value, in input order; an integral frequency is rendered with
a trailing .0, so the path text need not match the input text. -/
theorem C7_output_path (frequencies : List ℚ) (folder : String) :
    generate_files_paths frequencies folder =
      frequencies.map (fun f => folder ++ "/colundi_" ++ pyFloatRepr f ++ ".wav") ∧
    (∀ (g : WaveformGenerator) (K : WaveFormType) (files : List (String × List ℝ)),
      generate_files g frequencies folder K = Except.ok files →
      files.map Prod.fst = generate_files_paths frequencies folder) ∧
    (∀ n : ℕ, pyFloatRepr (n : ℚ) = Nat.repr n ++ ".0") := by
  refine ⟨rfl, ?_, pyFloatRepr_natCast⟩
  intro g K files h
  rw [generate_files] at h
  exact generate_files_loop_paths g (wave_functions K) folder frequencies files h
